import Mathlib

/-!
Verification of the `sdjournal` reader (`src/sdjournal/read.go`) of
mathpl/go-systemd.

The file has two layers:

* a model of the underlying journal handle (`Journal`).  The Go type
  `Journal` lives in `journal.go`, which is not part of the sources under
  verification; its operations (`Next`, `SeekTail`, `PreviousSkip`,
  `SeekRealtimeUsec`, `AddMatch`, `GetData`, `GetDataAll`,
  `GetRealtimeUsec`, `Wait`) are modelled from the spec's description of
  the LogHandle collaborator (spec section 6).  The model supports fault
  injection so that the error paths of `read.go` can be exercised.
* faithful translations of the functions of `read.go`:
  `NewJournalReader`, `Read`, `ReadEntry`, `FollowJournal`, `Follow`,
  `buildMessage`, `buildJsonMessage`, `buildRawMessage`.

Concurrency in the follow loops (the context's cancellation signal and the
background `Journal.Wait` goroutine) is modelled by a deterministic
schedule: every inspection of `ctx.Done()` consumes one index of a global
check counter, and cancellation is visible at inspection `i` exactly when
`i` is at or past the schedule's firing point; each wait phase consumes one
entry of a schedule of wait outcomes (the change-event code returned by
`Journal.Wait`, and the number of journal records visible after the wait).
The consumer-side sink (channel or `io.Writer`) is modelled as a list that
accepts writes immediately.
-/

namespace SdJournal

/-- Modelled from the spec: one record of the append-only log store.
`fields` is the record's field mapping, `realtimeUsec` its real-time
timestamp in microseconds.  `fieldsErr` (resp. `realtimeErr`) injects a
storage failure into `GetDataAll` (resp. `GetRealtimeUsec`) at this
record, so that decode-side error paths are representable. -/
structure Record where
  fields : List (String × String)
  realtimeUsec : Nat
  fieldsErr : Option Nat
  realtimeErr : Option Nat
deriving DecidableEq

instance {ε α : Type} [DecidableEq ε] [DecidableEq α] :
    DecidableEq (Except ε α) := fun a b =>
  match a, b with
  | .error x, .error y =>
    if h : x = y then .isTrue (congrArg Except.error h)
    else .isFalse fun hc => h (Except.error.inj hc)
  | .ok x, .ok y =>
    if h : x = y then .isTrue (congrArg Except.ok h)
    else .isFalse fun hc => h (Except.ok.inj hc)
  | .error _, .ok _ => .isFalse fun hc => Except.noConfusion hc
  | .ok _, .error _ => .isFalse fun hc => Except.noConfusion hc

/-- Modelled from the spec: the LogHandle (Go type `Journal` of
`journal.go`, absent from the sources).  `recs` is the eventual sequence
of records; a `.error e` element injects a storage failure into the
cursor advance that would move onto that record.  `available` is how many
records are currently visible (`available` grows when a wait phase
observes appends; the tail is at position `available`).  `cursor` is the
index of the next record an advance would yield; `SeekTail` parks it one
past the visible end so that `PreviousSkip 1` lands on the last visible
record.  The `…Err` fields inject failures into the seek primitives, and
`matchErrs` lists the filter strings whose `AddMatch` fails. -/
structure Journal where
  recs : List (Except Nat Record)
  available : Nat
  cursor : Nat
  seekRealtimeErr : Option Nat
  seekTailErr : Option Nat
  prevSkipErr : Option Nat
  matchErrs : List String
  addedMatches : List String
deriving DecidableEq

/-- Modelled from the spec: `Advance` / Go `Journal.Next`.  Returns the
number of records moved (`1`, or `0` at the tail — not an error) and the
journal afterwards; advancing onto a fault-injected record fails with
that storage error. -/
def Journal.next (j : Journal) : Except Nat (Nat × Journal) :=
  if j.cursor < j.available then
    match j.recs[j.cursor]? with
    | some (.error e) => .error e
    | some (.ok _) => .ok (1, { j with cursor := j.cursor + 1 })
    | none => .ok (0, j)
  else .ok (0, j)

/-- The record the cursor currently references (the one the last
successful advance moved onto), if any. -/
def Journal.currentRecord (j : Journal) : Option Record :=
  match j.cursor with
  | 0 => none
  | c + 1 =>
    match j.recs[c]? with
    | some (.ok r) => some r
    | _ => none

/-- Modelled from the spec: `GetField` / Go `Journal.GetData`.  Returns
the value of the named field of the current record; a missing field is a
storage error (code 2), not an empty string. -/
def Journal.getData (j : Journal) (field : String) : Except Nat String :=
  match j.currentRecord with
  | none => .error 99
  | some r =>
    match r.fields.lookup field with
    | some v => .ok v
    | none => .error 2

/-- Modelled from the spec: `GetAllFields` / Go `Journal.GetDataAll`.
Returns the full field mapping of the current record; on success the
mapping is never the Go `nil` map (the implementation allocates it). -/
def Journal.getDataAll (j : Journal) : Except Nat (List (String × String)) :=
  match j.currentRecord with
  | none => .error 99
  | some r =>
    match r.fieldsErr with
    | some e => .error e
    | none => .ok r.fields

/-- Modelled from the spec: `GetRealtimeMicros` / Go
`Journal.GetRealtimeUsec`. -/
def Journal.getRealtimeUsec (j : Journal) : Except Nat Nat :=
  match j.currentRecord with
  | none => .error 99
  | some r =>
    match r.realtimeErr with
    | some e => .error e
    | none => .ok r.realtimeUsec

/-- Modelled from the spec: `SeekRealtime` — position the cursor so that
the next advance yields the first record at or after instant `t`
(microseconds since the epoch). -/
def Journal.seekRealtimeUsec (j : Journal) (t : Nat) : Except Nat Journal :=
  match j.seekRealtimeErr with
  | some e => .error e
  | none =>
    .ok { j with
      cursor := j.recs.findIdx fun r =>
        match r with
        | .ok rec => decide (t ≤ rec.realtimeUsec)
        | .error _ => false }

/-- Modelled from the spec: `SeekTail` — park the cursor after the last
visible record, so that `PreviousSkip 1` lands on the last record and the
advance following `PreviousSkip k` yields the record `k - 1` before the
tail. -/
def Journal.seekTail (j : Journal) : Except Nat Journal :=
  match j.seekTailErr with
  | some e => .error e
  | none => .ok { j with cursor := j.available + 1 }

/-- Modelled from the spec: `StepBackward` / Go `Journal.PreviousSkip` —
move the cursor back `k` positions (stopping at the start), returning the
count actually moved. -/
def Journal.previousSkip (j : Journal) (k : Nat) : Except Nat (Nat × Journal) :=
  match j.prevSkipErr with
  | some e => .error e
  | none => .ok (min k j.cursor, { j with cursor := j.cursor - k })

/-- Modelled from the spec: `AddMatch` — cumulative registration of a
field-equality filter string.  Returns the journal and the error, which
`NewJournalReader` discards. -/
def Journal.addMatch (j : Journal) (s : String) : Journal × Option Nat :=
  if s ∈ j.matchErrs then (j, some 1)
  else ({ j with addedMatches := j.addedMatches ++ [s] }, none)

/-- Growth of the visible portion of the log observed by a wait phase:
`available` only ever grows. -/
def Journal.bump (j : Journal) (n : Nat) : Journal :=
  { j with available := max j.available n }

/-- Modelled from the spec: the change-event code `SD_JOURNAL_NOP`. -/
def SD_JOURNAL_NOP : Int := 0

/-- Modelled from the spec: the change-event code `SD_JOURNAL_APPEND`. -/
def SD_JOURNAL_APPEND : Int := 1

/-- Modelled from the spec: the change-event code `SD_JOURNAL_INVALIDATE`. -/
def SD_JOURNAL_INVALIDATE : Int := 2

/-- A journal whose visible records are exactly `rs`, freshly opened
(cursor at the head) with no injected faults. -/
def mkJournal (rs : List Record) : Journal :=
  ⟨rs.map Except.ok, rs.length, 0, none, none, none, [], []⟩

/-- Go `Match` (from `journal.go`, modelled from the spec): a
field-equality filter. -/
structure Match where
  field : String
  value : String
deriving DecidableEq

/-- Go `Match.String`: the `FIELD=value` encoding. -/
def Match.string (m : Match) : String := m.field ++ "=" ++ m.value

/-- Go `JournalReaderConfig` (`read.go`): `since` is the Go
`time.Duration` in nanoseconds (`0` means unset), `numFromTail` the Go
`NumFromTail`, `Matches` the filter set. -/
structure JournalReaderConfig where
  since : Int
  numFromTail : Nat
  Matches : List Match
deriving DecidableEq

/-- Go `JournalReader` (`read.go`): wraps the open journal handle. -/
structure JournalReader where
  journal : Journal
deriving DecidableEq

/-- Go's `uint64(start.UnixNano() / 1000)` on an instant `t` in
nanoseconds: truncating division toward zero, then the `uint64`
conversion (reduction mod `2 ^ 64`). -/
def usecFromNano (t : Int) : Nat := (Int.emod (Int.tdiv t 1000) (2 ^ 64)).toNat

/-- Go `NewJournalReader` (`read.go`).  `openRes` is the outcome of
`NewJournal()`; `nowNano` is `time.Now().UnixNano()`.  Mirrors the
source: the error of `AddMatch` is discarded; a `Since` of zero falls
through to the `NumFromTail` branch; seek and skip failures abort
construction. -/
def newJournalReader (openRes : Except Nat Journal) (nowNano : Int)
    (config : JournalReaderConfig) : Except Nat JournalReader :=
  match openRes with
  | .error e => .error e
  | .ok j0 =>
    let j1 := config.Matches.foldl (fun j m => (j.addMatch m.string).1) j0
    if config.since ≠ 0 then
      match j1.seekRealtimeUsec (usecFromNano (nowNano + config.since)) with
      | .error e => .error e
      | .ok j2 => .ok ⟨j2⟩
    else if config.numFromTail ≠ 0 then
      match j1.seekTail with
      | .error e => .error e
      | .ok j2 =>
        match j2.previousSkip (config.numFromTail + 1) with
        | .error e => .error e
        | .ok (_, j3) => .ok ⟨j3⟩
    else .ok ⟨j1⟩

/-- The error component of Go's `(JournalEntry, error)` /
`(string, error)` results: `eof` is `io.EOF` ("no data at tail"),
`storage e` any other storage error. -/
inductive ReadErr where
  | eof
  | storage (e : Nat)
deriving DecidableEq

/-- Go `JournalReader.buildRawMessage` (`read.go`): all fields of the
current record. -/
def Journal.buildRawMessage (j : Journal) : Except Nat (List (String × String)) :=
  j.getDataAll

/-- Go `JournalReader.ReadEntry` (`read.go`): advance the cursor; a real
advance error propagates, `0` records moved is `io.EOF`, otherwise the
full field mapping of the reached record is returned (with decode
failures propagated). -/
def Journal.readEntry (j : Journal) :
    Except ReadErr (List (String × String)) × Journal :=
  match j.next with
  | .error e => (.error (.storage e), j)
  | .ok (0, j') => (.error .eof, j')
  | .ok (_ + 1, j') =>
    match j'.buildRawMessage with
    | .error e => (.error (.storage e), j')
    | .ok m => (.ok m, j')

/-- Modelled from the spec: the rendering of the implementation's native
time representation (Go `time.Time`'s formatting is opaque serialization
formatting, excluded by the spec); modelled as the decimal rendering of
the instant in nanoseconds. -/
def timeString (ns : Nat) : String := toString ns

/-- Go `time.Unix(0, int64(usec) * int64(time.Microsecond))`: the instant
in nanoseconds. -/
def timeUnixNano (usec : Nat) : Nat := usec * 1000

/-- Go `JournalReader.buildMessage` (`read.go`): fetch the `MESSAGE`
field and the record's real-time timestamp, render
`"<timestamp> <message>\n"`; any fetch failure propagates with no
string. -/
def Journal.buildMessage (j : Journal) : Except Nat String :=
  match j.getData "MESSAGE" with
  | .error e => .error e
  | .ok msg =>
    match j.getRealtimeUsec with
    | .error e => .error e
    | .ok usec => .ok (timeString (timeUnixNano usec) ++ " " ++ msg ++ "\n")

/-- Modelled from the spec: `encoding/json`'s rendering of a string map
(serialization formatting, an excluded external collaborator); modelled
without escaping and in the mapping's own field order. -/
def jsonMarshal (fields : List (String × String)) : String :=
  "\x7b" ++
    String.intercalate ","
      (fields.map fun p => "\"" ++ p.1 ++ "\":\"" ++ p.2 ++ "\"") ++
  "\x7d"

/-- Go `JournalReader.buildJsonMessage` (`read.go`): the JSON rendering
of all fields of the current record, newline-terminated. -/
def Journal.buildJsonMessage (j : Journal) : Except Nat String :=
  match j.getDataAll with
  | .error e => .error e
  | .ok fields => .ok (jsonMarshal fields ++ "\n")

/-- The bytes of a Go string (code points; identical to the UTF-8 bytes
on the ASCII content the model produces). -/
def strBytes (s : String) : List Nat := s.data.map Char.toNat

/-- Go's builtin `copy(dst, src)`: overwrite the first
`min dst.length src.length` elements of `dst` with those of `src`,
keeping `dst`'s length. -/
def goCopy (dst src : List Nat) : List Nat :=
  src.take dst.length ++ dst.drop (min dst.length src.length)

/-- Go `JournalReader.Read` (`read.go`): advance the cursor; on a real
error return `(0, err)`, at the tail `(0, io.EOF)`; otherwise render the
JSON message, copy it into the caller's buffer `b` (truncating to `b`'s
length) and return the length of the whole message.  The result is
`((count, error), buffer afterwards, journal afterwards)`. -/
def Journal.read (j : Journal) (b : List Nat) :
    (Nat × Option ReadErr) × List Nat × Journal :=
  match j.next with
  | .error e => ((0, some (.storage e)), b, j)
  | .ok (0, j') => ((0, some .eof), b, j')
  | .ok (_ + 1, j') =>
    match j'.buildJsonMessage with
    | .error e => ((0, some (.storage e)), b, j')
    | .ok msg => (((strBytes msg).length, none), goCopy b (strBytes msg), j')

/-- The deterministic schedule resolving the follow loops' concurrency:
`cancelAt = some k` means the context's cancellation signal is visible
from the `k`-th inspection of `ctx.Done()` on (inspections are counted
globally along the run), `none` means it never fires. -/
structure Env where
  cancelAt : Option Nat
deriving DecidableEq

/-- Whether the `i`-th inspection of `ctx.Done()` sees the context
cancelled.  Monotone in `i`: once fired, the signal stays fired. -/
def ctxDone (env : Env) (i : Nat) : Bool :=
  match env.cancelAt with
  | none => false
  | some k => decide (k ≤ i)

/-- How a follow loop returned: `expired` is `return ErrExpired`;
`retNil` is the exit through `break process` after a real read error —
the function's named return `err` is never assigned (the loop's `:=`
shadows it), so this path returns `nil`; `fuelOut` means the run was cut
off by the step bound while still looping. -/
inductive FollowOut where
  | expired
  | retNil
  | fuelOut
deriving DecidableEq

/-- The diagnostic `log.Printf` of the wait phase's `switch`: recognized
change-event codes produce nothing, an unrecognized code produces one
diagnostic line.  No other effect. -/
def unknownDiag (e : Int) : List Int :=
  if e = SD_JOURNAL_NOP ∨ e = SD_JOURNAL_APPEND ∨ e = SD_JOURNAL_INVALIDATE
  then [] else [e]

/-- Observable outcome of a `FollowJournal` run: how it returned, the
entries sent to the `writer` channel in order, the journal afterwards,
and the diagnostic log lines. -/
structure FollowRun where
  out : FollowOut
  emitted : List (List (String × String))
  journal : Journal
  diags : List Int
deriving DecidableEq

/-- Go `JournalReader.FollowJournal` (`read.go`), run under the schedule
`env` with `fuel` bounding the number of loop iterations.  `idx` is the
index of the next `ctx.Done()` inspection; `waits` schedules each wait
phase's outcome (the change-event code `Journal.Wait` returns, and the
number of records visible after the wait — an exhausted schedule means
quiet 100ms timeouts, code `SD_JOURNAL_NOP`, with no growth).  Per
iteration: `ReadEntry`; a real error breaks out of the loop (returning
`nil`, see `FollowOut.retNil`); otherwise `ctx.Done()` is inspected
before anything is sent — if fired, return `ErrExpired`; a received
entry is sent to the writer and the loop restarts without waiting; at
the tail the wait races `ctx.Done()` against `Journal.Wait`'s result,
and on a wait result the `switch` on the event code falls through to
restarting the loop whatever the code was. -/
def followJournalAux :
    Nat → Env → Journal → Nat → List (Int × Nat) → FollowRun
  | 0, _, j, _, _ => ⟨.fuelOut, [], j, []⟩
  | fuel + 1, env, j, idx, waits =>
    match j.readEntry with
    | (.error (.storage _), j') => ⟨.retNil, [], j', []⟩
    | (.error .eof, j') =>
      if ctxDone env idx then ⟨.expired, [], j', []⟩
      else
        let w := waits.headD (SD_JOURNAL_NOP, j'.available)
        if ctxDone env (idx + 1) then ⟨.expired, [], j', []⟩
        else
          let rest := followJournalAux fuel env (j'.bump w.2) (idx + 2) waits.tail
          ⟨rest.out, rest.emitted, rest.journal, unknownDiag w.1 ++ rest.diags⟩
    | (.ok m, j') =>
      if ctxDone env idx then ⟨.expired, [], j', []⟩
      else
        let rest := followJournalAux fuel env j' (idx + 1) waits
        ⟨rest.out, m :: rest.emitted, rest.journal, rest.diags⟩

/-- Observable outcome of a `Follow` run: how it returned, the writes the
`io.Writer` received in order (each paired with the count `c` that
iteration's `Read` returned), the journal afterwards, and the diagnostic
log lines. -/
structure ByteRun where
  out : FollowOut
  chunks : List (Nat × List Nat)
  journal : Journal
  diags : List Int
deriving DecidableEq

/-- Go `JournalReader.Follow` (`read.go`), run under the schedule `env`
exactly as `followJournalAux` runs `FollowJournal`.  Per iteration a
fresh zeroed 64 KiB buffer is allocated, `Read` fills it, and on a read
of `c > 0` bytes the **whole** buffer `msg` is written to the writer
(`writer.Write(msg)`, not `msg[:c]`); the pair `(c, buffer)` is recorded
per write.  Error, cancellation and wait handling are as in
`FollowJournal` (with the incidental 1s poll timeout instead of
100ms). -/
def followAux :
    Nat → Env → Journal → Nat → List (Int × Nat) → ByteRun
  | 0, _, j, _, _ => ⟨.fuelOut, [], j, []⟩
  | fuel + 1, env, j, idx, waits =>
    match j.read (List.replicate 65536 0) with
    | ((_, some (.storage _)), _, j') => ⟨.retNil, [], j', []⟩
    | ((c, _), b', j') =>
      if ctxDone env idx then ⟨.expired, [], j', []⟩
      else if 0 < c then
        let rest := followAux fuel env j' (idx + 1) waits
        ⟨rest.out, (c, b') :: rest.chunks, rest.journal, rest.diags⟩
      else
        let w := waits.headD (SD_JOURNAL_NOP, j'.available)
        if ctxDone env (idx + 1) then ⟨.expired, [], j', []⟩
        else
          let rest := followAux fuel env (j'.bump w.2) (idx + 2) waits.tail
          ⟨rest.out, rest.chunks, rest.journal, unknownDiag w.1 ++ rest.diags⟩

/-! ## Helper lemmas -/

/-- Exhaustive description of one `ReadEntry` step: at the tail it is
`io.EOF` with the journal untouched; on a fault-injected record the
storage error propagates; on a clean record the advance succeeds, the
cursor moves one step, and the record's fields are returned (or its
injected decode failure propagates). -/
theorem readEntry_cases (j : Journal) :
    (¬ (j.cursor < j.available ∧ j.cursor < j.recs.length)
      ∧ j.readEntry = (.error .eof, j))
  ∨ (∃ e, j.cursor < j.available ∧ j.recs[j.cursor]? = some (.error e)
      ∧ j.readEntry = (.error (.storage e), j))
  ∨ (∃ r e, j.cursor < j.available ∧ j.recs[j.cursor]? = some (.ok r)
      ∧ r.fieldsErr = some e
      ∧ j.readEntry = (.error (.storage e), { j with cursor := j.cursor + 1 }))
  ∨ (∃ r, j.cursor < j.available ∧ j.recs[j.cursor]? = some (.ok r)
      ∧ r.fieldsErr = none
      ∧ j.readEntry = (.ok r.fields, { j with cursor := j.cursor + 1 })) := by
  by_cases hav : j.cursor < j.available
  · cases hg : j.recs[j.cursor]? with
    | none =>
      refine Or.inl ⟨?_, ?_⟩
      · rintro ⟨-, hlen⟩
        rw [List.getElem?_eq_getElem hlen] at hg
        exact Option.noConfusion hg
      · simp [Journal.readEntry, Journal.next, hav, hg]
    | some x =>
      cases x with
      | error e =>
        refine Or.inr (Or.inl ⟨e, hav, rfl, ?_⟩)
        simp [Journal.readEntry, Journal.next, hav, hg]
      | ok r =>
        cases hf : r.fieldsErr with
        | some e =>
          refine Or.inr (Or.inr (Or.inl ⟨r, e, hav, rfl, hf, ?_⟩))
          simp [Journal.readEntry, Journal.next, hav, hg,
            Journal.buildRawMessage, Journal.getDataAll, Journal.currentRecord, hf]
        | none =>
          refine Or.inr (Or.inr (Or.inr ⟨r, hav, rfl, hf, ?_⟩))
          simp [Journal.readEntry, Journal.next, hav, hg,
            Journal.buildRawMessage, Journal.getDataAll, Journal.currentRecord, hf]
  · refine Or.inl ⟨fun h => hav h.1, ?_⟩
    simp [Journal.readEntry, Journal.next, hav]

/-- The field mapping carried by a (non-faulted) record of the log. -/
def okFields : Except Nat Record → List (String × String)
  | .ok r => r.fields
  | .error _ => []

/-- The growth step `Journal.bump` changes neither the cursor nor the
record sequence. -/
theorem bump_cursor (j : Journal) (n : Nat) :
    (j.bump n).cursor = j.cursor ∧ (j.bump n).recs = j.recs :=
  ⟨rfl, rfl⟩

/-- C3: whatever the schedule, a `FollowJournal` run emits
exactly a contiguous in-order segment of the log starting at the initial
cursor position — no reordering, no duplication, no skipping. -/
theorem followJournal_emitted_segment (fuel : Nat) (env : Env) (j : Journal)
    (idx : Nat) (waits : List (Int × Nat)) :
    ∃ n, (followJournalAux fuel env j idx waits).emitted
        = ((j.recs.drop j.cursor).take n).map okFields := by
  induction fuel generalizing j idx waits with
  | zero => exact ⟨0, by simp [followJournalAux]⟩
  | succ fuel ih =>
    rcases readEntry_cases j with ⟨h, hre⟩ | ⟨e, hav, hg, hre⟩
      | ⟨r, e, hav, hg, hf, hre⟩ | ⟨r, hav, hg, hre⟩
    · simp only [followJournalAux, hre]
      by_cases hc : ctxDone env idx
      · exact ⟨0, by simp [hc]⟩
      · by_cases hc2 : ctxDone env (idx + 1)
        · exact ⟨0, by simp [hc, hc2]⟩
        · obtain ⟨n, hn⟩ := ih (j.bump (waits.headD (SD_JOURNAL_NOP, j.available)).2)
            (idx + 2) waits.tail
          exact ⟨n, by simpa [hc, hc2, Journal.bump] using hn⟩
    · exact ⟨0, by simp [followJournalAux, hre]⟩
    · exact ⟨0, by simp [followJournalAux, hre]⟩
    · obtain ⟨hfe, hre⟩ := hre
      simp only [followJournalAux, hre]
      by_cases hc : ctxDone env idx
      · exact ⟨0, by simp [hc]⟩
      · obtain ⟨n, hn⟩ := ih { j with cursor := j.cursor + 1 } (idx + 1) waits
        obtain ⟨hlen, hget⟩ := List.getElem?_eq_some.mp hg
        refine ⟨n + 1, ?_⟩
        rw [List.drop_eq_getElem_cons hlen, hget]
        simp [hc, hn, okFields]

/-- Exhaustive description of one `Read` step on a buffer `b`: `io.EOF`
at the tail, a propagated storage error on a faulted advance or decode
(buffer untouched), and otherwise the JSON message copied into the
buffer with the full message length returned. -/
theorem read_cases (j : Journal) (b : List Nat) :
    (¬ (j.cursor < j.available ∧ j.cursor < j.recs.length)
      ∧ j.read b = ((0, some .eof), b, j))
  ∨ (∃ e, j.read b = ((0, some (.storage e)), b, j))
  ∨ (∃ e, j.read b
      = ((0, some (.storage e)), b, { j with cursor := j.cursor + 1 }))
  ∨ (∃ r, j.cursor < j.available ∧ j.recs[j.cursor]? = some (.ok r)
      ∧ r.fieldsErr = none
      ∧ j.read b
        = (((strBytes (jsonMarshal r.fields ++ "\n")).length, none),
            goCopy b (strBytes (jsonMarshal r.fields ++ "\n")),
            { j with cursor := j.cursor + 1 })) := by
  by_cases hav : j.cursor < j.available
  · cases hg : j.recs[j.cursor]? with
    | none =>
      refine Or.inl ⟨?_, ?_⟩
      · rintro ⟨-, hlen⟩
        rw [List.getElem?_eq_getElem hlen] at hg
        exact Option.noConfusion hg
      · simp [Journal.read, Journal.next, hav, hg]
    | some x =>
      cases x with
      | error e =>
        refine Or.inr (Or.inl ⟨e, ?_⟩)
        simp [Journal.read, Journal.next, hav, hg]
      | ok r =>
        cases hf : r.fieldsErr with
        | some e =>
          refine Or.inr (Or.inr (Or.inl ⟨e, ?_⟩))
          simp [Journal.read, Journal.next, hav, hg,
            Journal.buildJsonMessage, Journal.getDataAll, Journal.currentRecord, hf]
        | none =>
          refine Or.inr (Or.inr (Or.inr ⟨r, hav, rfl, hf, ?_⟩))
          simp [Journal.read, Journal.next, hav, hg,
            Journal.buildJsonMessage, Journal.getDataAll, Journal.currentRecord, hf]
  · refine Or.inl ⟨fun h => hav h.1, ?_⟩
    simp [Journal.read, Journal.next, hav]

/-- The newline-terminated JSON message is never empty, so a successful
`Read` in the follow loop always reports `c > 0`. -/
theorem strBytes_json_pos (s : String) : 0 < (strBytes (s ++ "\n")).length := by
  simp [strBytes, String.data_append]

/-- Emissions of `FollowJournal` happen only at `ctx.Done()` inspections
that precede the cancellation point: with cancellation scheduled at
inspection `k` and the loop entered at inspection `idx`, at most
`k - idx` entries can still be emitted. -/
theorem followJournal_emitted_before_cancel (fuel : Nat) (env : Env)
    (j : Journal) (idx : Nat) (waits : List (Int × Nat)) (k : Nat)
    (hk : env.cancelAt = some k) :
    (followJournalAux fuel env j idx waits).emitted.length ≤ k - idx := by
  induction fuel generalizing j idx waits with
  | zero => simp [followJournalAux]
  | succ fuel ih =>
    rcases readEntry_cases j with ⟨-, hre⟩ | ⟨e, -, -, hre⟩
      | ⟨r, e, -, -, -, hre⟩ | ⟨r, -, -, -, hre⟩
    all_goals simp only [followJournalAux, hre]
    · by_cases hc : ctxDone env idx
      · simp [hc]
      · by_cases hc2 : ctxDone env (idx + 1)
        · simp [hc, hc2]
        · have := ih (j.bump (waits.headD (SD_JOURNAL_NOP, j.available)).2)
            (idx + 2) waits.tail
          simp only [hc, hc2, if_neg, Bool.false_eq_true, if_false] at *
          omega
    · simp
    · simp
    · by_cases hc : ctxDone env idx
      · simp [hc]
      · have hlt : idx < k := by
          by_contra hge
          exact hc (by simp [ctxDone, hk]; omega)
        have := ih { j with cursor := j.cursor + 1 } (idx + 1) waits
        simp only [hc, Bool.false_eq_true, if_false, List.length_cons]
        omega

/-- Emissions of `Follow` happen only at `ctx.Done()` inspections that
precede the cancellation point. -/
theorem follow_chunks_before_cancel (fuel : Nat) (env : Env)
    (j : Journal) (idx : Nat) (waits : List (Int × Nat)) (k : Nat)
    (hk : env.cancelAt = some k) :
    (followAux fuel env j idx waits).chunks.length ≤ k - idx := by
  induction fuel generalizing j idx waits with
  | zero => simp [followAux]
  | succ fuel ih =>
    rcases read_cases j (List.replicate 65536 0) with ⟨-, hre⟩ | ⟨e, hre⟩
      | ⟨e, hre⟩ | ⟨r, -, -, -, hre⟩
    all_goals simp only [followAux, hre]
    · by_cases hc : ctxDone env idx
      · simp [hc]
      · by_cases hc2 : ctxDone env (idx + 1)
        · simp [hc, hc2]
        · have := ih (j.bump (waits.headD (SD_JOURNAL_NOP, j.available)).2)
            (idx + 2) waits.tail
          simp only [hc, hc2, Bool.false_eq_true, if_false, Nat.lt_irrefl] at *
          omega
    · simp
    · simp
    · by_cases hc : ctxDone env idx
      · simp [hc]
      · have hlt : idx < k := by
          by_contra hge
          exact hc (by simp [ctxDone, hk]; omega)
        have hpos := strBytes_json_pos (jsonMarshal r.fields)
        have := ih { j with cursor := j.cursor + 1 } (idx + 1) waits
        simp only [hc, Bool.false_eq_true, if_false, hpos, if_true, List.length_cons]
        omega

/-- Whether a `ReadEntry` result is a real storage error (as opposed to
success or `io.EOF`). -/
def isStorageResult : Except ReadErr (List (String × String)) → Bool
  | .error (.storage _) => true
  | _ => false

/-- Whether a `Read` error component is a real storage error. -/
def isStorageOpt : Option ReadErr → Bool
  | some (.storage _) => true
  | _ => false

/-- Once the cancellation signal has fired, `FollowJournal` emits nothing
further and returns `ErrExpired` — provided the read of that iteration
does not fail with a real storage error (the error check precedes the
cancellation check in the loop body). -/
theorem followJournal_cancelled_expires (fuel : Nat) (env : Env)
    (j : Journal) (idx : Nat) (waits : List (Int × Nat)) (k : Nat)
    (hk : env.cancelAt = some k) (hidx : k ≤ idx) (hfuel : 0 < fuel)
    (hr : isStorageResult (j.readEntry).1 = false) :
    (followJournalAux fuel env j idx waits).out = .expired
    ∧ (followJournalAux fuel env j idx waits).emitted = [] := by
  obtain ⟨fuel, rfl⟩ : ∃ f, fuel = f + 1 := ⟨fuel - 1, by omega⟩
  have hc : ctxDone env idx = true := by simp [ctxDone, hk, hidx]
  rcases readEntry_cases j with ⟨-, hre⟩ | ⟨e, -, -, hre⟩
    | ⟨r, e, -, -, -, hre⟩ | ⟨r, -, -, -, hre⟩
  · simp [followJournalAux, hre, hc]
  · rw [hre] at hr
    simp [isStorageResult] at hr
  · rw [hre] at hr
    simp [isStorageResult] at hr
  · simp [followJournalAux, hre, hc]

/-- Once the cancellation signal has fired, `Follow` writes nothing
further and returns `ErrExpired` — provided the read of that iteration
does not fail with a real storage error. -/
theorem follow_cancelled_expires (fuel : Nat) (env : Env)
    (j : Journal) (idx : Nat) (waits : List (Int × Nat)) (k : Nat)
    (hk : env.cancelAt = some k) (hidx : k ≤ idx) (hfuel : 0 < fuel)
    (hr : isStorageOpt ((j.read (List.replicate 65536 0)).1).2 = false) :
    (followAux fuel env j idx waits).out = .expired
    ∧ (followAux fuel env j idx waits).chunks = [] := by
  obtain ⟨fuel, rfl⟩ : ∃ f, fuel = f + 1 := ⟨fuel - 1, by omega⟩
  have hc : ctxDone env idx = true := by simp [ctxDone, hk, hidx]
  rcases read_cases j (List.replicate 65536 0) with ⟨-, hre⟩ | ⟨e, hre⟩
    | ⟨e, hre⟩ | ⟨r, -, -, -, hre⟩
  · simp only [followAux, hre, hc, if_true]
    constructor <;> trivial
  · rw [hre] at hr
    simp [isStorageOpt] at hr
  · rw [hre] at hr
    simp [isStorageOpt] at hr
  · simp only [followAux, hre, hc, if_true]
    constructor <;> trivial

/-- Applying the match filters changes only the set of registered
filters: the cursor, the records, the visible count and the injected
seek faults are untouched, whether or not individual `AddMatch` calls
fail. -/
theorem foldl_addMatch_preserves (ms : List Match) (j : Journal) :
    (ms.foldl (fun j m => (j.addMatch m.string).1) j).recs = j.recs
    ∧ (ms.foldl (fun j m => (j.addMatch m.string).1) j).available = j.available
    ∧ (ms.foldl (fun j m => (j.addMatch m.string).1) j).cursor = j.cursor
    ∧ (ms.foldl (fun j m => (j.addMatch m.string).1) j).seekRealtimeErr = j.seekRealtimeErr
    ∧ (ms.foldl (fun j m => (j.addMatch m.string).1) j).seekTailErr = j.seekTailErr
    ∧ (ms.foldl (fun j m => (j.addMatch m.string).1) j).prevSkipErr = j.prevSkipErr := by
  induction ms generalizing j with
  | nil => exact ⟨rfl, rfl, rfl, rfl, rfl, rfl⟩
  | cons m ms ih =>
    have hstep : ((j.addMatch m.string).1).recs = j.recs
        ∧ ((j.addMatch m.string).1).available = j.available
        ∧ ((j.addMatch m.string).1).cursor = j.cursor
        ∧ ((j.addMatch m.string).1).seekRealtimeErr = j.seekRealtimeErr
        ∧ ((j.addMatch m.string).1).seekTailErr = j.seekTailErr
        ∧ ((j.addMatch m.string).1).prevSkipErr = j.prevSkipErr := by
      unfold Journal.addMatch
      split <;> exact ⟨rfl, rfl, rfl, rfl, rfl, rfl⟩
    have hih := ih ((j.addMatch m.string).1)
    simp only [List.foldl_cons]
    exact ⟨hih.1.trans hstep.1,
      hih.2.1.trans hstep.2.1,
      hih.2.2.1.trans hstep.2.2.1,
      hih.2.2.2.1.trans hstep.2.2.2.1,
      hih.2.2.2.2.1.trans hstep.2.2.2.2.1,
      hih.2.2.2.2.2.trans hstep.2.2.2.2.2⟩

/-- C4: for a configuration with count-from-tail `N > 0` and no
relative-time offset, construction seeks to the tail and steps backward
`N + 1` positions, leaving the cursor `N` records before the tail: on a
log of at least `N + 1` records, the first record the subsequent advance
yields is exactly the one `N` before the tail (index `length - N`), not
`N + 1` before it. -/
theorem newJournalReader_numFromTail_position (rs : List Record)
    (ms : List Match) (N : Nat) (hN : 0 < N) (hL : N + 1 ≤ rs.length)
    (hclean : ∀ r ∈ rs, r.fieldsErr = none) :
    ∃ jr, newJournalReader (.ok (mkJournal rs)) 0 ⟨0, N, ms⟩ = .ok jr
      ∧ jr.journal.cursor = rs.length - N
      ∧ ∃ hlt : rs.length - N < rs.length,
          (jr.journal.readEntry).1 = .ok (rs.get ⟨rs.length - N, hlt⟩).fields := by
  have hN' : N ≠ 0 := Nat.pos_iff_ne_zero.mp hN
  obtain ⟨hrecs, hav, hcur, hsr, hst, hps⟩ :=
    foldl_addMatch_preserves ms (mkJournal rs)
  set j1 := ms.foldl (fun j m => (j.addMatch m.string).1) (mkJournal rs) with hj1
  have hst' : j1.seekTailErr = none := by rw [hst]; rfl
  have hps' : j1.prevSkipErr = none := by rw [hps]; rfl
  have hav' : j1.available = rs.length := by rw [hav]; rfl
  have hrecs' : j1.recs = rs.map Except.ok := by rw [hrecs]; rfl
  have hmain : newJournalReader (.ok (mkJournal rs)) 0 ⟨0, N, ms⟩
      = .ok ⟨{ j1 with cursor := j1.available + 1 - (N + 1) }⟩ := by
    simp only [newJournalReader, ← hj1]
    rw [if_neg (by norm_num), if_pos hN']
    simp only [Journal.seekTail, hst', Journal.previousSkip, hps']
  have hlt : rs.length - N < rs.length := by omega
  have hget : (rs.map Except.ok : List (Except Nat Record))[rs.length - N]?
      = some (Except.ok (rs.get ⟨rs.length - N, hlt⟩)) := by
    rw [List.getElem?_map, List.getElem?_eq_getElem hlt]
    rfl
  have hfe : (rs.get ⟨rs.length - N, hlt⟩).fieldsErr = none :=
    hclean _ (List.get_mem rs _ hlt)
  refine ⟨⟨{ j1 with cursor := j1.available + 1 - (N + 1) }⟩, hmain, ?_, hlt, ?_⟩
  · show j1.available + 1 - (N + 1) = rs.length - N
    rw [hav']
    omega
  · show ({ j1 with cursor := j1.available + 1 - (N + 1) } : Journal).readEntry.1
      = .ok (rs.get ⟨rs.length - N, hlt⟩).fields
    simp only [Journal.readEntry, Journal.next, hav', hrecs']
    rw [show rs.length + 1 - (N + 1) = rs.length - N from by omega, if_pos hlt, hget]
    have hfe' : rs[rs.length - N].fieldsErr = none := hfe
    simp [Journal.buildRawMessage, Journal.getDataAll, Journal.currentRecord, hget,
      hfe', List.get_eq_getElem]

/-- Two `FollowJournal` runs whose wait schedules differ only in the
change-event codes returned by `Journal.Wait` (the records appearing per
wait are the same) have the same outcome, the same emissions and the
same final journal — only the diagnostic log may differ. -/
theorem followJournal_waits_snd (fuel : Nat) (env : Env) (j : Journal)
    (idx : Nat) (w₁ w₂ : List (Int × Nat))
    (h : w₁.map Prod.snd = w₂.map Prod.snd) :
    (followJournalAux fuel env j idx w₁).out
      = (followJournalAux fuel env j idx w₂).out
    ∧ (followJournalAux fuel env j idx w₁).emitted
      = (followJournalAux fuel env j idx w₂).emitted
    ∧ (followJournalAux fuel env j idx w₁).journal
      = (followJournalAux fuel env j idx w₂).journal := by
  induction fuel generalizing j idx w₁ w₂ with
  | zero => exact ⟨rfl, rfl, rfl⟩
  | succ fuel ih =>
    rcases readEntry_cases j with ⟨-, hre⟩ | ⟨e, -, -, hre⟩
      | ⟨r, e, -, -, -, hre⟩ | ⟨r, -, -, -, hre⟩
    · simp only [followJournalAux, hre]
      by_cases hc : ctxDone env idx
      · simp [hc]
      · by_cases hc2 : ctxDone env (idx + 1)
        · simp [hc, hc2]
        · simp only [hc, hc2, Bool.false_eq_true, if_false]
          cases w₁ with
          | nil =>
            cases w₂ with
            | nil => exact ⟨rfl, rfl, rfl⟩
            | cons b t => simp at h
          | cons a t₁ =>
            cases w₂ with
            | nil => simp at h
            | cons b t₂ =>
              simp only [List.map_cons, List.cons.injEq] at h
              obtain ⟨hsnd, htl⟩ := h
              simp only [List.headD_cons, List.tail_cons]
              rw [hsnd]
              exact ih (j.bump b.2) (idx + 2) t₁ t₂ htl
    · simp [followJournalAux, hre]
    · simp [followJournalAux, hre]
    · simp only [followJournalAux, hre]
      by_cases hc : ctxDone env idx
      · simp [hc]
      · have hih := ih { j with cursor := j.cursor + 1 } (idx + 1) w₁ w₂ h
        simp only [hc, Bool.false_eq_true, if_false]
        exact ⟨hih.1, by rw [hih.2.1], hih.2.2⟩

/-- Two `Follow` runs whose wait schedules differ only in the
change-event codes have the same outcome, writes and final journal. -/
theorem follow_waits_snd (fuel : Nat) (env : Env) (j : Journal)
    (idx : Nat) (w₁ w₂ : List (Int × Nat))
    (h : w₁.map Prod.snd = w₂.map Prod.snd) :
    (followAux fuel env j idx w₁).out = (followAux fuel env j idx w₂).out
    ∧ (followAux fuel env j idx w₁).chunks = (followAux fuel env j idx w₂).chunks
    ∧ (followAux fuel env j idx w₁).journal = (followAux fuel env j idx w₂).journal := by
  induction fuel generalizing j idx w₁ w₂ with
  | zero => exact ⟨rfl, rfl, rfl⟩
  | succ fuel ih =>
    rcases read_cases j (List.replicate 65536 0) with ⟨-, hre⟩ | ⟨e, hre⟩
      | ⟨e, hre⟩ | ⟨r, -, -, -, hre⟩
    · simp only [followAux, hre]
      by_cases hc : ctxDone env idx
      · simp [hc]
      · by_cases hc2 : ctxDone env (idx + 1)
        · simp [hc, hc2]
        · simp only [hc, hc2, Bool.false_eq_true, if_false, Nat.lt_irrefl]
          cases w₁ with
          | nil =>
            cases w₂ with
            | nil => exact ⟨rfl, rfl, rfl⟩
            | cons b t => simp at h
          | cons a t₁ =>
            cases w₂ with
            | nil => simp at h
            | cons b t₂ =>
              simp only [List.map_cons, List.cons.injEq] at h
              obtain ⟨hsnd, htl⟩ := h
              simp only [List.headD_cons, List.tail_cons]
              rw [hsnd]
              exact ih (j.bump b.2) (idx + 2) t₁ t₂ htl
    · simp only [followAux, hre]
      exact ⟨trivial, trivial, trivial⟩
    · simp only [followAux, hre]
      exact ⟨trivial, trivial, trivial⟩
    · simp only [followAux, hre]
      by_cases hc : ctxDone env idx
      · simp [hc]
      · have hpos := strBytes_json_pos (jsonMarshal r.fields)
        have hih := ih { j with cursor := j.cursor + 1 } (idx + 1) w₁ w₂ h
        simp only [hc, Bool.false_eq_true, if_false, hpos, if_true]
        exact ⟨hih.1, by rw [hih.2.1], hih.2.2⟩

/-- Go's `copy` never changes the destination's length. -/
theorem goCopy_length (dst src : List Nat) : (goCopy dst src).length = dst.length := by
  simp [goCopy]

/-- Copying into a zeroed buffer leaves every byte past the source's
length zero. -/
theorem goCopy_drop_src_length (n : Nat) (src : List Nat) :
    (goCopy (List.replicate n 0) src).drop src.length
      = List.replicate (n - src.length) 0 := by
  rcases le_or_lt src.length n with h | h
  · rw [goCopy, List.length_replicate, List.take_of_length_le h,
      min_eq_right h, List.drop_replicate]
    exact List.drop_left src _
  · rw [goCopy, List.length_replicate, min_eq_left (Nat.le_of_lt h),
      List.drop_replicate, Nat.sub_self, List.replicate_zero, List.append_nil]
    rw [List.drop_eq_nil_of_le, Nat.sub_eq_zero_of_le (Nat.le_of_lt h),
      List.replicate_zero]
    rw [List.length_take]
    omega

/-- C10: every write of the byte-stream follow path (`Follow`) is the
entire fixed 64 KiB buffer, not the `c` bytes actually read: each chunk
handed to the writer has length 65536 whatever `c` was, and every byte
from position `c` on is a zero byte (the untouched zero-initialized
remainder of the buffer). -/
theorem follow_writes_whole_buffer (fuel : Nat) (env : Env) (j : Journal)
    (idx : Nat) (waits : List (Int × Nat)) :
    ((followAux fuel env j idx waits).chunks.all fun p =>
      p.2.length == 65536 && p.2.drop p.1 == List.replicate (65536 - p.1) 0)
      = true := by
  induction fuel generalizing j idx waits with
  | zero => simp [followAux]
  | succ fuel ih =>
    rcases read_cases j (List.replicate 65536 0) with ⟨-, hre⟩ | ⟨e, hre⟩
      | ⟨e, hre⟩ | ⟨r, -, -, -, hre⟩
    · simp only [followAux, hre]
      by_cases hc : ctxDone env idx
      · simp [hc]
      · by_cases hc2 : ctxDone env (idx + 1)
        · simp [hc, hc2]
        · simp only [hc, hc2, Bool.false_eq_true, if_false, Nat.lt_irrefl]
          exact ih _ _ _
    · simp only [followAux, hre]
      rfl
    · simp only [followAux, hre]
      rfl
    · simp only [followAux, hre]
      by_cases hc : ctxDone env idx
      · simp [hc]
      · have hpos := strBytes_json_pos (jsonMarshal r.fields)
        simp only [hc, Bool.false_eq_true, if_false, hpos, if_true,
          List.all_cons, Bool.and_eq_true, beq_iff_eq]
        refine ⟨⟨?_, ?_⟩, ih _ _ _⟩
        · rw [goCopy_length, List.length_replicate]
        · exact goCopy_drop_src_length 65536 _

/-- A journal whose single record faults the cursor advance with
storage error 5. -/
def faultyJournal : Journal := ⟨[.error 5], 1, 0, none, none, none, [], []⟩

/-- C1 (code bug): when the advance fails with a real storage error
(here error 5 at the first record), both `FollowJournal` and `Follow`
break out of their loop immediately — but the value returned to the
caller is `nil`, not that error: the loop's `msg, err := …` shadows the
function's named return `err`, which the `break`-then-bare-`return`
path leaves at its zero value.  The error propagation the spec requires
does not happen. -/
theorem follow_error_returns_nil :
    (faultyJournal.readEntry).1 = .error (.storage 5)
    ∧ (followJournalAux 1 ⟨none⟩ faultyJournal 0 []).out = .retNil
    ∧ ((faultyJournal.read (List.replicate 65536 0)).1).2 = some (.storage 5)
    ∧ (followAux 1 ⟨none⟩ faultyJournal 0 []).out = .retNil :=
  ⟨rfl, rfl, rfl, rfl⟩

/-- C2, counterexample: a run whose context is already cancelled at the
first inspection, on a journal whose read faults: the run returns `nil`
(the error-path exit), not `ErrExpired` — the read-error check precedes
the cancellation check. -/
theorem follow_cancelled_error_counterexample :
    ctxDone ⟨some 0⟩ 0 = true
    ∧ (followJournalAux 1 ⟨some 0⟩ faultyJournal 0 []).out = .retNil
    ∧ (followJournalAux 1 ⟨some 0⟩ faultyJournal 0 []).out ≠ .expired :=
  ⟨rfl, rfl, by decide⟩

/-- C2 (amended): on every iteration of either follow loop the
cancellation signal is inspected before the just-read entry is written,
so entries are emitted only at inspections strictly before the
cancellation point — once cancellation has fired nothing further is
emitted, however many entries remain drainable; and a loop entered with
cancellation already fired emits nothing and returns `ErrExpired`,
provided that iteration's read does not fail with a real storage error
(the error check runs first and exits through the error path
instead). -/
theorem follow_cancellation_stops_emission (fuel : Nat) (env : Env)
    (j : Journal) (idx : Nat) (waits : List (Int × Nat)) (k : Nat)
    (hk : env.cancelAt = some k) :
    ((followJournalAux fuel env j idx waits).emitted.length ≤ k - idx
      ∧ (followAux fuel env j idx waits).chunks.length ≤ k - idx)
    ∧ (k ≤ idx → 0 < fuel →
        (isStorageResult (j.readEntry).1 = false →
          (followJournalAux fuel env j idx waits).out = .expired
          ∧ (followJournalAux fuel env j idx waits).emitted = [])
        ∧ (isStorageOpt ((j.read (List.replicate 65536 0)).1).2 = false →
          (followAux fuel env j idx waits).out = .expired
          ∧ (followAux fuel env j idx waits).chunks = [])) := by
  refine ⟨⟨followJournal_emitted_before_cancel fuel env j idx waits k hk,
    follow_chunks_before_cancel fuel env j idx waits k hk⟩,
    fun hidx hfuel => ⟨?_, ?_⟩⟩
  · exact fun hr =>
      followJournal_cancelled_expires fuel env j idx waits k hk hidx hfuel hr
  · exact fun hr =>
      follow_cancelled_expires fuel env j idx waits k hk hidx hfuel hr

theorem follow_cancellation_stops_emission_witness :
    (followJournalAux 1 ⟨some 0⟩ (mkJournal []) 0 []).out = .expired
    ∧ (followJournalAux 1 ⟨some 0⟩ (mkJournal []) 0 []).emitted = []
    ∧ (followAux 1 ⟨some 0⟩ (mkJournal []) 0 []).out = .expired := by
  have h := follow_cancellation_stops_emission 1 ⟨some 0⟩ (mkJournal []) 0 [] 0 rfl
  have h2 := h.2 (Nat.le_refl 0) (by decide)
  exact ⟨(h2.1 (by decide)).1, (h2.1 (by decide)).2, (h2.2 (by decide)).1⟩

theorem newJournalReader_numFromTail_position_witness :
    ∃ jr, newJournalReader
        (.ok (mkJournal
          [⟨[("MESSAGE", "a")], 1, none, none⟩,
           ⟨[("MESSAGE", "b")], 2, none, none⟩,
           ⟨[("MESSAGE", "c")], 3, none, none⟩])) 0 ⟨0, 2, []⟩ = .ok jr
      ∧ jr.journal.cursor = 1
      ∧ ∃ hlt : (1 : Nat) < 3,
          (jr.journal.readEntry).1
            = .ok (([⟨[("MESSAGE", "a")], 1, none, none⟩,
                ⟨[("MESSAGE", "b")], 2, none, none⟩,
                ⟨[("MESSAGE", "c")], 3, none, none⟩] : List Record).get ⟨1, hlt⟩).fields :=
  newJournalReader_numFromTail_position
    [⟨[("MESSAGE", "a")], 1, none, none⟩,
     ⟨[("MESSAGE", "b")], 2, none, none⟩,
     ⟨[("MESSAGE", "c")], 3, none, none⟩] [] 2
    (by decide) (by decide) (by decide)

/-- The journal handle of the C5 counterexample: applying the filter
string `UNIT=foo.service` to it fails. -/
def badMatchJournal : Journal :=
  ⟨[], 0, 0, none, none, none, ["UNIT=foo.service"], []⟩

/-- C5, counterexample: `AddMatch` fails for the configured filter
(returning an error), yet `NewJournalReader` succeeds on the same
configuration — the filter-application failure does not abort
construction, because the source never checks `AddMatch`'s return. -/
theorem newJournalReader_ignores_match_failure :
    (badMatchJournal.addMatch (Match.string ⟨"UNIT", "foo.service"⟩)).2 = some 1
    ∧ newJournalReader (.ok badMatchJournal) 0 ⟨0, 0, [⟨"UNIT", "foo.service"⟩]⟩
        = .ok ⟨badMatchJournal⟩ := by
  exact ⟨by decide, by decide⟩

/-- C5 (amended): construction fails and leaves no usable session when
opening the log fails or when the initial positioning (time seek, tail
seek, or backward skip) fails; a failure while applying a match filter,
however, is silently discarded and never aborts construction. -/
theorem newJournalReader_failure_modes (e : Nat) (n : Int)
    (cfg : JournalReaderConfig) (j : Journal) :
    (newJournalReader (.error e) n cfg = .error e)
    ∧ (cfg.since ≠ 0 → j.seekRealtimeErr = some e →
        newJournalReader (.ok j) n cfg = .error e)
    ∧ (cfg.since = 0 → cfg.numFromTail ≠ 0 → j.seekTailErr = some e →
        newJournalReader (.ok j) n cfg = .error e)
    ∧ (cfg.since = 0 → cfg.numFromTail ≠ 0 → j.seekTailErr = none →
        j.prevSkipErr = some e → newJournalReader (.ok j) n cfg = .error e)
    ∧ (cfg.since = 0 → cfg.numFromTail = 0 →
        newJournalReader (.ok j) n cfg
          = .ok ⟨cfg.Matches.foldl (fun j m => (j.addMatch m.string).1) j⟩) := by
  obtain ⟨-, -, -, hsr, hst, hps⟩ := foldl_addMatch_preserves cfg.Matches j
  refine ⟨rfl, ?_, ?_, ?_, ?_⟩
  · intro hs hre
    simp only [newJournalReader]
    rw [if_pos hs]
    simp only [Journal.seekRealtimeUsec, hsr.trans hre]
  · intro hs hn hte
    simp only [newJournalReader]
    rw [if_neg (by simp [hs]), if_pos hn]
    simp only [Journal.seekTail, hst.trans hte]
  · intro hs hn htn hpse
    simp only [newJournalReader]
    rw [if_neg (by simp [hs]), if_pos hn]
    simp only [Journal.seekTail, hst.trans htn, Journal.previousSkip,
      hps.trans hpse]
  · intro hs hn
    simp only [newJournalReader]
    rw [if_neg (by simp [hs]), if_neg (by simp [hn])]

/-- A journal handle whose tail seek is fault-injected with error 3. -/
def tailErrJournal : Journal := ⟨[], 0, 0, none, some 3, none, [], []⟩

theorem newJournalReader_failure_modes_witness :
    newJournalReader (.error 3) 0 ⟨0, 0, []⟩ = .error 3
    ∧ newJournalReader (.ok tailErrJournal) 0 ⟨0, 5, []⟩ = .error 3
    ∧ newJournalReader (.ok (mkJournal [])) 0 ⟨0, 0, []⟩ = .ok ⟨mkJournal []⟩ :=
  ⟨(newJournalReader_failure_modes 3 0 ⟨0, 0, []⟩ (mkJournal [])).1,
   (newJournalReader_failure_modes 3 0 ⟨0, 5, []⟩ tailErrJournal).2.2.1
     rfl (by decide) rfl,
   (newJournalReader_failure_modes 3 0 ⟨0, 0, []⟩ (mkJournal [])).2.2.2.2
     rfl rfl⟩

/-- C6: the engine's control flow after a wait does not depend on the
change-event code `Journal.Wait` returned: two runs of either follow
loop whose wait schedules differ only in the event codes (recognized or
not) produce the same outcome, the same emissions/writes and the same
final journal — only the unknown-code diagnostic log can differ. -/
theorem follow_event_code_irrelevant (fuel : Nat) (env : Env) (j : Journal)
    (idx : Nat) (w₁ w₂ : List (Int × Nat))
    (h : w₁.map Prod.snd = w₂.map Prod.snd) :
    ((followJournalAux fuel env j idx w₁).out
        = (followJournalAux fuel env j idx w₂).out
      ∧ (followJournalAux fuel env j idx w₁).emitted
        = (followJournalAux fuel env j idx w₂).emitted
      ∧ (followJournalAux fuel env j idx w₁).journal
        = (followJournalAux fuel env j idx w₂).journal)
    ∧ ((followAux fuel env j idx w₁).out = (followAux fuel env j idx w₂).out
      ∧ (followAux fuel env j idx w₁).chunks = (followAux fuel env j idx w₂).chunks
      ∧ (followAux fuel env j idx w₁).journal = (followAux fuel env j idx w₂).journal) :=
  ⟨followJournal_waits_snd fuel env j idx w₁ w₂ h,
   follow_waits_snd fuel env j idx w₁ w₂ h⟩

theorem follow_event_code_irrelevant_witness :
    (followJournalAux 3 ⟨none⟩ (mkJournal []) 0 [((7 : Int), 0)]).emitted
      = (followJournalAux 3 ⟨none⟩ (mkJournal []) 0 [(SD_JOURNAL_NOP, 0)]).emitted
    ∧ (followAux 3 ⟨none⟩ (mkJournal []) 0 [((7 : Int), 0)]).out
      = (followAux 3 ⟨none⟩ (mkJournal []) 0 [(SD_JOURNAL_NOP, 0)]).out := by
  have h := follow_event_code_irrelevant 3 ⟨none⟩ (mkJournal []) 0
    [((7 : Int), 0)] [(SD_JOURNAL_NOP, 0)] (by decide)
  exact ⟨h.1.2.1, h.2.1⟩

/-- C7: a single `ReadEntry` pull returns `io.EOF` exactly when the
cursor advance reports no data (the cursor is at the visible tail); a
successful advance returns the decoded entry's field mapping; a failed
advance or a failed decode returns that storage error and no entry. -/
theorem readEntry_result_spec (j : Journal) :
    ((j.readEntry).1 = .error .eof
      ↔ ¬ (j.cursor < j.available ∧ j.cursor < j.recs.length))
    ∧ (∀ r, j.cursor < j.available → j.recs[j.cursor]? = some (.ok r) →
        r.fieldsErr = none → (j.readEntry).1 = .ok r.fields)
    ∧ (∀ e, j.cursor < j.available → j.recs[j.cursor]? = some (.error e) →
        (j.readEntry).1 = .error (.storage e))
    ∧ (∀ r e, j.cursor < j.available → j.recs[j.cursor]? = some (.ok r) →
        r.fieldsErr = some e → (j.readEntry).1 = .error (.storage e)) := by
  refine ⟨⟨?_, ?_⟩, ?_, ?_, ?_⟩
  · intro h hrange
    rcases readEntry_cases j with ⟨hn, -⟩ | ⟨e, -, -, hre⟩
      | ⟨r, e, -, -, -, hre⟩ | ⟨r, -, -, -, hre⟩
    · exact hn hrange
    · rw [hre] at h
      exact absurd h (by simp)
    · rw [hre] at h
      exact absurd h (by simp)
    · rw [hre] at h
      exact absurd h (by simp)
  · intro h
    rcases readEntry_cases j with ⟨-, hre⟩ | ⟨e, hav, hg, -⟩
      | ⟨r, e, hav, hg, -, -⟩ | ⟨r, hav, hg, -, -⟩
    · rw [hre]
    · exact absurd ⟨hav, (List.getElem?_eq_some.mp hg).1⟩ h
    · exact absurd ⟨hav, (List.getElem?_eq_some.mp hg).1⟩ h
    · exact absurd ⟨hav, (List.getElem?_eq_some.mp hg).1⟩ h
  · intro r hav hg hf
    simp [Journal.readEntry, Journal.next, hav, hg, Journal.buildRawMessage,
      Journal.getDataAll, Journal.currentRecord, hf]
  · intro e hav hg
    simp [Journal.readEntry, Journal.next, hav, hg]
  · intro r e hav hg hf
    simp [Journal.readEntry, Journal.next, hav, hg, Journal.buildRawMessage,
      Journal.getDataAll, Journal.currentRecord, hf]

theorem readEntry_result_spec_witness :
    ((mkJournal [⟨[("MESSAGE", "hello")], 7, none, none⟩]).readEntry).1
        = .ok [("MESSAGE", "hello")]
    ∧ ((mkJournal []).readEntry).1 = .error .eof :=
  ⟨(readEntry_result_spec (mkJournal [⟨[("MESSAGE", "hello")], 7, none, none⟩])).2.1
      ⟨[("MESSAGE", "hello")], 7, none, none⟩ (by decide) rfl rfl,
   (readEntry_result_spec (mkJournal [])).1.mpr (by decide)⟩

/-- C8: line-mode decoding (`buildMessage`) fetches exactly the MESSAGE
field and the record's real-time timestamp in microseconds and renders
`"<timestamp> <message>\n"`; a record without a MESSAGE field yields a
storage error, never an empty message string. -/
theorem buildMessage_spec (j : Journal) (r : Record)
    (hcur : j.currentRecord = some r) (hrt : r.realtimeErr = none) :
    (∀ v, r.fields.lookup "MESSAGE" = some v →
      j.buildMessage
        = .ok (timeString (timeUnixNano r.realtimeUsec) ++ " " ++ v ++ "\n"))
    ∧ (r.fields.lookup "MESSAGE" = none → j.buildMessage = .error 2) := by
  constructor
  · intro v hv
    simp [Journal.buildMessage, Journal.getData, Journal.getRealtimeUsec,
      hcur, hv, hrt]
  · intro hv
    simp [Journal.buildMessage, Journal.getData, hcur, hv]

/-- A journal positioned on a record whose only field is
`MESSAGE=hello` at timestamp 42. -/
def msgJournal : Journal :=
  { mkJournal [⟨[("MESSAGE", "hello")], 42, none, none⟩] with cursor := 1 }

/-- A journal positioned on a record with no MESSAGE field. -/
def noMsgJournal : Journal :=
  { mkJournal [⟨[("OTHER", "x")], 42, none, none⟩] with cursor := 1 }

theorem buildMessage_spec_witness :
    msgJournal.buildMessage
      = .ok (timeString (timeUnixNano 42) ++ " " ++ "hello" ++ "\n")
    ∧ noMsgJournal.buildMessage = .error 2 :=
  ⟨(buildMessage_spec msgJournal ⟨[("MESSAGE", "hello")], 42, none, none⟩
      rfl rfl).1 "hello" (by decide),
   (buildMessage_spec noMsgJournal ⟨[("OTHER", "x")], 42, none, none⟩
      rfl rfl).2 (by decide)⟩

/-- A freshly opened journal with one record `MESSAGE=hello`. -/
def helloJournal : Journal :=
  mkJournal [⟨[("MESSAGE", "hello")], 0, none, none⟩]

/-- C9: a concrete input on which `Read` reports more bytes than it
stored: the rendered JSON message is 20 bytes, the caller's buffer holds
3, `copy` truncates to the first 3 bytes, yet `Read` returns 20 —
silently dropping the tail of the message. -/
theorem read_count_exceeds_buffer :
    (helloJournal.read (List.replicate 3 0)).1 = (20, none)
    ∧ (helloJournal.read (List.replicate 3 0)).2.1
        = (strBytes (jsonMarshal [("MESSAGE", "hello")] ++ "\n")).take 3
    ∧ (strBytes (jsonMarshal [("MESSAGE", "hello")] ++ "\n")).length = 20
    ∧ (helloJournal.read (List.replicate 3 0)).2.1.length = 3 := by
  refine ⟨by decide, by decide, by decide, by decide⟩

end SdJournal
